import Mathlib

/-!
Verification development for `blob_downloader.py`, a CLI that lists and
downloads blobs from an Azure-style container via a SAS URL.

The development shallowly embeds the pure core of the script:
URL splitting (`_sas_params`, `_base_url` on top of CPython
`urllib.parse.urlparse`), paginated listing (`list_blobs`), RFC-1123
timestamp normalization (`_parse_last_modified` on top of CPython
`email.utils.parsedate_to_datetime`, plus `_blob_modified_date`),
`YYYY-MM-DD` argument parsing (`_parse_yyyy_mm_dd` on top of CPython
`datetime.strptime` with format `%Y-%m-%d`), and the date-scoped
selection logic of `download_since` / `download_date` / `download_range`.

Python exceptions are modelled with `Except String`; `None` with
`Option`.  Network effects are abstracted: the listing engine takes the
HTTP service as a function from request URL to parsed response page, and
the download commands take the listing (the result the network would
produce) as an explicit parameter, so that "raised before any network
call" becomes "the result is this error for every possible listing".
-/

deriving instance DecidableEq for Except

/-- Calendar date (year, month, day), the embedding of Python
`datetime.date` values.  Python compares dates lexicographically by
(year, month, day). -/
structure Date where
  year : Int
  month : Int
  day : Int
deriving DecidableEq, Repr

/-- Strict comparison of dates, the embedding of Python `date.__lt__`
(lexicographic on year, month, day). -/
def Date.blt (a b : Date) : Bool :=
  a.year < b.year ||
    (a.year = b.year && (a.month < b.month ||
      (a.month = b.month && a.day < b.day)))

/-- Non-strict comparison of dates, the embedding of Python
`date.__le__`. -/
def Date.ble (a b : Date) : Bool :=
  Date.blt a b || a = b

/-- Leap-year test of the proleptic Gregorian calendar, as used by
Python `datetime` (`calendar.isleap`). -/
def isLeap (y : Int) : Bool :=
  (y % 4 = 0 && y % 100 ≠ 0) || y % 400 = 0

/-- Number of days in a month of the proleptic Gregorian calendar
(Python `calendar.monthrange` / `datetime._days_in_month`). -/
def daysInMonth (y m : Int) : Int :=
  if m = 2 then (if isLeap y then 29 else 28)
  else if m = 4 || m = 6 || m = 9 || m = 11 then 30
  else 31

/-- Days elapsed from 1970-01-01 to the given proleptic Gregorian civil
date (negative before the epoch).  This is the standard civil-from-days
bijection; Python `date.toordinal` equals this value plus 719163. -/
def daysFromCivil (y m d : Int) : Int :=
  let y2 : Int := if m ≤ 2 then y - 1 else y
  let era : Int := Int.fdiv y2 400
  let yoe : Int := y2 - era * 400
  let mp : Int := if 2 < m then m - 3 else m + 9
  let doy : Int := Int.fdiv (153 * mp + 2) 5 + d - 1
  let doe : Int := yoe * 365 + Int.fdiv yoe 4 - Int.fdiv yoe 100 + doy
  era * 146097 + doe - 719468

/-- Inverse of `daysFromCivil`: the proleptic Gregorian civil date of a
day count relative to 1970-01-01. -/
def civilFromDays (z0 : Int) : Date :=
  let z : Int := z0 + 719468
  let era : Int := Int.fdiv z 146097
  let doe : Int := z - era * 146097
  let yoe : Int :=
    Int.fdiv (doe - Int.fdiv doe 1460 + Int.fdiv doe 36524 - Int.fdiv doe 146096) 365
  let y : Int := yoe + era * 400
  let doy : Int := doe - (365 * yoe + Int.fdiv yoe 4 - Int.fdiv yoe 100)
  let mp : Int := Int.fdiv (5 * doy + 2) 153
  let d : Int := doy - Int.fdiv (153 * mp + 2) 5 + 1
  let m : Int := if mp < 10 then mp + 3 else mp - 9
  ⟨if m ≤ 2 then y + 1 else y, m, d⟩

/-- Aware or naive Python `datetime` value as produced by
`email.utils.parsedate_to_datetime`: civil components plus an optional
fixed UTC offset in seconds (`none` models a naive datetime). -/
structure PyDatetime where
  year : Int
  month : Int
  day : Int
  hour : Int
  minute : Int
  second : Int
  tzoffset : Option Int
deriving DecidableEq, Repr

/-- Embedding of the `datetime.datetime` constructor: validates the
field ranges exactly as CPython does and raises `ValueError` (modelled
as `Except.error`) otherwise. -/
def datetime_new (y mo d h mi s : Int) (tz : Option Int) :
    Except String PyDatetime :=
  if ¬(1 ≤ y ∧ y ≤ 9999) then .error "year is out of range"
  else if ¬(1 ≤ mo ∧ mo ≤ 12) then .error "month must be in 1..12"
  else if ¬(1 ≤ d ∧ d ≤ daysInMonth y mo) then
    .error "day is out of range for month"
  else if ¬(0 ≤ h ∧ h ≤ 23) then .error "hour must be in 0..23"
  else if ¬(0 ≤ mi ∧ mi ≤ 59) then .error "minute must be in 0..59"
  else if ¬(0 ≤ s ∧ s ≤ 59) then .error "second must be in 0..59"
  else .ok ⟨y, mo, d, h, mi, s, tz⟩

/-- Embedding of the `datetime.timezone` constructor: the offset must be
strictly between -24 hours and +24 hours, else `ValueError`. -/
def timezone_new (off : Int) : Except String Int :=
  if -86400 < off ∧ off < 86400 then .ok off
  else .error "offset must be a timedelta strictly between -timedelta(hours=24) and timedelta(hours=24)"

/-- Seconds elapsed from the epoch 1970-01-01T00:00:00Z to the instant
denoted by an (aware-or-naive) datetime, a naive value being read with
offset 0.  This is the instant `dt.astimezone(timezone.utc)` denotes. -/
def PyDatetime.epochSeconds (dt : PyDatetime) : Int :=
  daysFromCivil dt.year dt.month dt.day * 86400 +
    dt.hour * 3600 + dt.minute * 60 + dt.second - dt.tzoffset.getD 0

/-- Embedding of `dt.astimezone(timezone.utc).date()`: the UTC calendar
date of the instant the datetime denotes. -/
def PyDatetime.toUtcDate (dt : PyDatetime) : Date :=
  civilFromDays (Int.fdiv dt.epochSeconds 86400)

/-! ### String helpers mirroring the Python `str` operations used -/

/-- First index of a character in a list, if any (Python `str.find`,
with `none` for `-1`). -/
def idxOfChar (c : Char) : List Char → Option Nat
  | [] => none
  | x :: xs =>
    if x = c then some 0
    else (idxOfChar c xs).map (· + 1)

/-- First index of a character in a string (Python `str.find`). -/
def strFind (s : String) (c : Char) : Option Nat :=
  idxOfChar c s.data

/-- Last index of a character in a string (Python `str.rfind`, with
`none` for `-1`). -/
def strRfind (s : String) (c : Char) : Option Nat :=
  match idxOfChar c s.data.reverse with
  | some i => some (s.data.length - 1 - i)
  | none => none

/-- Characterwise splitter on whitespace runs (auxiliary; `acc` holds
the current token reversed). -/
def chSplitWsAux : List Char → List Char → List (List Char)
  | [], acc => if acc = [] then [] else [acc.reverse]
  | c :: cs, acc =>
    if c.isWhitespace then
      if acc = [] then chSplitWsAux cs []
      else acc.reverse :: chSplitWsAux cs []
    else chSplitWsAux cs (c :: acc)

/-- Python `str.split()` with no argument: split on whitespace runs,
discarding empty pieces.  (Lean `Char.isWhitespace` covers the space,
tab, CR and LF characters that occur in HTTP headers; CPython would
additionally split on exotic Unicode spaces, which do not occur in the
inputs this program handles.) -/
def pySplit (s : String) : List String :=
  (chSplitWsAux s.data []).map (fun l => ⟨l⟩)

/-- Characterwise splitter at every occurrence of a separator (Python
`str.split(sep)` with a one-character separator: the empty string
yields `[""]`, adjacent separators yield empty pieces). -/
def splitAllChar (c : Char) : List Char → List (List Char)
  | [] => [[]]
  | x :: xs =>
    let r := splitAllChar c xs
    if x = c then [] :: r
    else
      match r with
      | h :: t => (x :: h) :: t
      | [] => [[x]]

/-- Python `str.split(sep)` with a one-character separator, on
strings. -/
def strSplitOnChar (s : String) (c : Char) : List String :=
  (splitAllChar c s.data).map (fun l => ⟨l⟩)

/-- Python `s.endswith(c)` for a one-character suffix (false on the
empty string). -/
def endsWithChar (s : String) (c : Char) : Bool :=
  s.data.getLast? = some c

/-- Python `s.startswith(c)` for a one-character candidate. -/
def startsWithChar (s : String) (c : Char) : Bool :=
  s.data.head? = some c

/-- Python `s[:-1]`. -/
def strDropRight1 (s : String) : String :=
  ⟨s.data.dropLast⟩

/-- Python `s[:n]` for a nonnegative index. -/
def strTake (s : String) (n : Nat) : String :=
  ⟨s.data.take n⟩

/-- Python `s[n:]` for a nonnegative index. -/
def strDrop (s : String) (n : Nat) : String :=
  ⟨s.data.drop n⟩

/-- Python `str.lower()` (ASCII letters; the tokens compared here are
ASCII). -/
def strToLower (s : String) : String :=
  ⟨s.data.map Char.toLower⟩

/-- Python `str.upper()` (ASCII letters; the tokens compared here are
ASCII). -/
def strToUpper (s : String) : String :=
  ⟨s.data.map Char.toUpper⟩

/-- Value of a nonempty list of decimal digits (auxiliary). -/
def digitsToNatAux : List Char → Nat → Option Nat
  | [], acc => some acc
  | c :: cs, acc =>
    if c.isDigit then digitsToNatAux cs (acc * 10 + (c.toNat - 48))
    else none

/-- Value of a nonempty all-digit list of characters, else `none`. -/
def digitsToNat : List Char → Option Nat
  | [] => none
  | l => digitsToNatAux l 0

/-- Embedding of Python `int(s)` on the token shapes this program meets:
an optional sign followed by decimal digits.  (CPython additionally
strips whitespace and allows underscores between digits; the tokens
reaching `int` here are whitespace-free and the program's inputs carry
no underscores.) -/
def pyInt? : List Char → Option Int
  | '+' :: ds => (digitsToNat ds).map Int.ofNat
  | '-' :: ds => (digitsToNat ds).map (fun n => -(n : Int))
  | ds => (digitsToNat ds).map Int.ofNat

/-! ### Embedding of `email.utils` RFC-1123 timestamp parsing -/

/-- Month-name table of `email._parseaddr` (`_monthnames`). -/
def pyMonthnames : List String :=
  ["jan", "feb", "mar", "apr", "may", "jun", "jul",
   "aug", "sep", "oct", "nov", "dec",
   "january", "february", "march", "april", "may", "june", "july",
   "august", "september", "october", "november", "december"]

/-- Day-name table of `email._parseaddr` (`_daynames`). -/
def pyDaynames : List String :=
  ["mon", "tue", "wed", "thu", "fri", "sat", "sun"]

/-- Timezone-name table of `email._parseaddr` (`_timezones`), values in
the raw `±HHMM`-as-integer convention of that module. -/
def pyTimezones : List (String × Int) :=
  [("UT", 0), ("UTC", 0), ("GMT", 0), ("Z", 0),
   ("AST", -400), ("ADT", -300),
   ("EST", -500), ("EDT", -400),
   ("CST", -600), ("CDT", -500),
   ("MST", -700), ("MDT", -600),
   ("PST", -800), ("PDT", -700)]

/-- Index of a string in a list (Python `list.index` on a member). -/
def idxOfStr (s : String) : List String → Nat
  | [] => 0
  | x :: xs => if x = s then 0 else idxOfStr s xs + 1

/-- Result tuple of `_parsedate_tz`: year, month, day, hour, minute,
second and the timezone offset in seconds (`none` when the string gave
no usable offset, in which case the datetime is naive). -/
abbrev PyTimeTuple := Int × Int × Int × Int × Int × Int × Option Int

/-- Step of `_parsedate_tz` handling the five fields `dd mm yy tm tz`
(from the check `if not (dd and mm and yy)` onwards), transcribed from
CPython 3.11 `email/_parseaddr.py`. -/
def parsedateFields (dd0 mm0 yy0 tm0 tz0 : String) : Option PyTimeTuple :=
  if dd0 = "" || mm0 = "" || yy0 = "" then none
  else
    let mm1 := strToLower mm0
    let swapped : Option (String × String) :=
      if pyMonthnames.contains mm1 then some (dd0, mm1)
      else
        let mm2 := strToLower dd0
        if pyMonthnames.contains mm2 then some (mm1, mm2) else none
    match swapped with
    | none => none
    | some (dd1, mmName) =>
      let mmIdx : Int := (idxOfStr mmName pyMonthnames : Int) + 1
      let mm : Int := if mmIdx > 12 then mmIdx - 12 else mmIdx
      let dd2 := if endsWithChar dd1 ',' then strDropRight1 dd1 else dd1
      let (yy1, tm1) :=
        match strFind yy0 ':' with
        | some i => if 0 < i then (tm0, yy0) else (yy0, tm0)
        | none => (yy0, tm0)
      let yyOpt : Option String :=
        if endsWithChar yy1 ',' then
          let y2 := strDropRight1 yy1
          if y2 = "" then none else some y2
        else some yy1
      match yyOpt with
      | none => none
      | some yy2 =>
        let (yy3, tz1) :=
          match yy2.data.head? with
          | some c => if c.isDigit then (yy2, tz0) else (tz0, yy2)
          | none => (yy2, tz0)
        let tm2 := if endsWithChar tm1 ',' then strDropRight1 tm1 else tm1
        let hms : Option (String × String × String) :=
          match strSplitOnChar tm2 ':' with
          | [thh, tmm] => some (thh, tmm, "0")
          | [thh, tmm, tss] => some (thh, tmm, tss)
          | [t0] =>
            if t0.data.contains '.' then
              match strSplitOnChar t0 '.' with
              | [thh, tmm] => some (thh, tmm, "0")
              | [thh, tmm, tss] => some (thh, tmm, tss)
              | _ => none
            else none
          | _ => none
        match hms with
        | none => none
        | some (thh0, tmm0, tss0) =>
          match pyInt? yy3.data, pyInt? dd2.data, pyInt? thh0.data,
              pyInt? tmm0.data, pyInt? tss0.data with
          | some yyN0, some ddN, some thhN, some tmmN, some tssN =>
            let yyN := if yyN0 < 100 then
                (if yyN0 > 68 then yyN0 + 1900 else yyN0 + 2000)
              else yyN0
            let tzU := strToUpper tz1
            let tzRaw : Option Int :=
              match (pyTimezones.find? (fun p => p.1 = tzU)).map Prod.snd with
              | some off => some off
              | none =>
                match pyInt? tzU.data with
                | some v =>
                  if v = 0 && startsWithChar tzU '-' then none else some v
                | none => none
            let tzoffset : Option Int :=
              match tzRaw with
              | some v =>
                if v ≠ 0 then
                  some (if v < 0 then
                      -((Int.tdiv (-v) 100) * 3600 + (Int.tmod (-v) 100) * 60)
                    else (Int.tdiv v 100) * 3600 + (Int.tmod v 100) * 60)
                else some 0
              | none => none
            some (yyN, mm, ddN, thhN, tmmN, tssN, tzoffset)
          | _, _, _, _, _ => none

/-- Embedding of CPython 3.11 `email._parseaddr._parsedate_tz`
restricted to the components `parsedate_to_datetime` consumes: returns
year, month, day, hour, minute, second and optional offset seconds, or
`none` where CPython returns `None`. -/
def pyParsedateTz (s : String) : Option PyTimeTuple :=
  if s = "" then none
  else
    match pySplit s with
    | [] => none
    | d0 :: rest0 =>
      let data0 : List String :=
        if endsWithChar d0 ',' || pyDaynames.contains (strToLower d0) then rest0
        else
          match strRfind d0 ',' with
          | some i => (strDrop d0 (i + 1)) :: rest0
          | none => d0 :: rest0
      let data1 : List String :=
        if data0.length = 3 then
          match data0 with
          | x :: xs =>
            let stuff := strSplitOnChar x '-'
            if stuff.length = 3 then stuff ++ xs else data0
          | [] => data0
        else data1aux data0
      if data1.length < 5 then none
      else
        match data1.take 5 with
        | [dd, mm, yy, tm, tz] => parsedateFields dd mm yy tm tz
        | _ => none
where
  /-- Step splitting a trailing `±HHMM` off the fourth token, or
  appending a dummy timezone token (the `len(data) == 4` branch). -/
  data1aux (data : List String) : List String :=
    match data with
    | [a, b, c, s3] =>
      let i : Option Nat :=
        match strFind s3 '+' with
        | some i => some i
        | none => strFind s3 '-'
      match i with
      | some i =>
        if 0 < i then [a, b, c, strTake s3 i, strDrop s3 i]
        else [a, b, c, s3, ""]
      | none => [a, b, c, s3, ""]
    | _ => data

/-- Embedding of CPython 3.11 `email.utils.parsedate_to_datetime`:
parse with `_parsedate_tz`, raise `ValueError` on `None`, build a naive
datetime when no offset was recognized and an aware one otherwise (the
`datetime.timezone` constructor being applied first, as in the source
expression order). -/
def parsedate_to_datetime (data : String) : Except String PyDatetime :=
  match pyParsedateTz data with
  | none =>
    .error ("Invalid date value or format \"" ++ data ++ "\"")
  | some (yy, mm, dd, thh, tmm, tss, tz) =>
    match tz with
    | none => datetime_new yy mm dd thh tmm tss none
    | some off => do
      let tzinfo ← timezone_new off
      datetime_new yy mm dd thh tmm tss (some tzinfo)

/-! ### Embedding of the blob record model and date normalization -/

/-- One row of the container listing, as built by `list_blobs`
(`src/blob_downloader.py` lines 72-78): `{"name": ..., "last_modified":
..., "size": ...}`, where `last_modified` is `None` or the raw
`Last-Modified` header string. -/
structure Blob where
  name : String
  last_modified : Option String
  size : Int
deriving DecidableEq, Repr

/-- Embedding of `_parse_last_modified` (lines 107-110): parse the
`Last-Modified` header (RFC 1123) into a datetime; the `ValueError`
raised by `parsedate_to_datetime` on failure propagates. -/
def _parse_last_modified (date_str : String) : Except String PyDatetime :=
  parsedate_to_datetime date_str

/-- Truthiness of `blob.get("last_modified")`: `None` and the empty
string are falsy. -/
def lastModifiedFalsy (blob : Blob) : Bool :=
  match blob.last_modified with
  | none => true
  | some s => s = ""

/-- Embedding of `_blob_modified_date` (lines 121-128): `None` when the
record has no (truthy) `last_modified` string; otherwise parse it, set
UTC on a naive result, and truncate the UTC instant to a calendar date.
A `ValueError` from parsing propagates (it is not caught here). -/
def _blob_modified_date (blob : Blob) : Except String (Option Date) :=
  if lastModifiedFalsy blob then .ok none
  else
    match blob.last_modified with
    | none => .ok none
    | some s => do
      let dt ← _parse_last_modified s
      let dt := if dt.tzoffset = none then { dt with tzoffset := some 0 } else dt
      return some dt.toUtcDate

/-! ### Embedding of `datetime.strptime(value, "%Y-%m-%d")` -/

/-- Matcher for the CPython `_strptime` month directive
`(?P<m>1[0-2]|0[1-9]|[1-9])` followed by a literal character `sep`:
returns the month value and the remaining input.  The ordered-
alternation regex semantics reduce to: a two-character alternative that
matches is final (its second character is a digit, so backtracking into
the one-character alternative can never place `sep` next). -/
def matchMonthThen (sep : Char) : List Char → Option (Int × List Char)
  | c1 :: c2 :: rest =>
    if c1 = '1' && ('0' ≤ c2 && c2 ≤ '2') then
      match rest with
      | c3 :: rest2 => if c3 = sep then some (10 + (c2.toNat - 48 : Nat), rest2) else none
      | [] => none
    else if c1 = '0' && ('1' ≤ c2 && c2 ≤ '9') then
      match rest with
      | c3 :: rest2 => if c3 = sep then some ((c2.toNat - 48 : Nat), rest2) else none
      | [] => none
    else if '1' ≤ c1 && c1 ≤ '9' then
      if c2 = sep then some ((c1.toNat - 48 : Nat), rest) else none
    else none
  | [_] => none
  | [] => none

/-- Matcher for the CPython `_strptime` day directive
`(?P<d>3[0-1]|[1-2]\d|0[1-9]|[1-9]| [1-9])` at the end of the input
(the `strptime` length check rejects any remaining characters). -/
def matchDayEnd : List Char → Option Int
  | c1 :: c2 :: rest =>
    if c1 = '3' && ('0' ≤ c2 && c2 ≤ '1') then
      if rest = [] then some (30 + (c2.toNat - 48 : Nat)) else none
    else if ('1' ≤ c1 && c1 ≤ '2') && c2.isDigit then
      if rest = [] then some ((c1.toNat - 48 : Nat) * 10 + (c2.toNat - 48 : Nat)) else none
    else if c1 = '0' && ('1' ≤ c2 && c2 ≤ '9') then
      if rest = [] then some ((c2.toNat - 48 : Nat)) else none
    else if '1' ≤ c1 && c1 ≤ '9' then
      none
    else if c1 = ' ' && ('1' ≤ c2 && c2 ≤ '9') then
      if rest = [] then some ((c2.toNat - 48 : Nat)) else none
    else none
  | [c1] => if '1' ≤ c1 && c1 ≤ '9' then some ((c1.toNat - 48 : Nat)) else none
  | [] => none

/-- Embedding of the regex match + length check of CPython
`_strptime._strptime(value, "%Y-%m-%d")`: exactly four digits, `-`, a
one- or two-digit month in 1..12, `-`, a one- or two-digit day in 1..31
(a space-padded single digit also matches), consuming the whole string.
Returns the raw (year, month, day) triple before `date` validation. -/
def strptimeYmd (s : String) : Option (Int × Int × Int) :=
  match s.data with
  | y1 :: y2 :: y3 :: y4 :: '-' :: rest =>
    if y1.isDigit && y2.isDigit && y3.isDigit && y4.isDigit then
      let y : Int := ((y1.toNat - 48) * 1000 + (y2.toNat - 48) * 100 +
        (y3.toNat - 48) * 10 + (y4.toNat - 48) : Nat)
      match matchMonthThen '-' rest with
      | some (m, rest2) =>
        match matchDayEnd rest2 with
        | some d => some (y, m, d)
        | none => none
      | none => none
    else none
  | _ => none

/-- Embedding of `_parse_yyyy_mm_dd` (lines 113-118):
`datetime.strptime(value, "%Y-%m-%d").date()`, with any `ValueError`
(regex mismatch, unconverted data, or an invalid calendar day such as
Feb 30 rejected by the `date` constructor) re-raised as
`ValueError(f"Invalid date '{value}'. Expected YYYY-MM-DD.")`. -/
def _parse_yyyy_mm_dd (value : String) : Except String Date :=
  match strptimeYmd value with
  | some (y, m, d) =>
    if 1 ≤ y ∧ y ≤ 9999 ∧ 1 ≤ m ∧ m ≤ 12 ∧ 1 ≤ d ∧ d ≤ daysInMonth y m then
      .ok ⟨y, m, d⟩
    else .error ("Invalid date '" ++ value ++ "'. Expected YYYY-MM-DD.")
  | none => .error ("Invalid date '" ++ value ++ "'. Expected YYYY-MM-DD.")

/-! ### Embedding of the date filters -/

/-- Embedding of the list-comprehension pattern shared by
`download_since`, `download_date` and `download_range`: evaluate
`_blob_modified_date` on each record in order, keep the records whose
normalized date satisfies the predicate, and let a `ValueError` raised
on any record abort the whole comprehension. -/
def filterModified (p : Option Date → Bool) :
    List Blob → Except String (List Blob)
  | [] => .ok []
  | b :: rest => do
    let md ← _blob_modified_date b
    let tail ← filterModified p rest
    return if p md then b :: tail else tail

/-- Selection of `download_since` (lines 154-157): records with
`_blob_modified_date(b)` truthy (a date, not `None`) and `>= cutoff`. -/
def download_since_filter (cutoff : Date) (blobs : List Blob) :
    Except String (List Blob) :=
  filterModified
    (fun md => match md with
      | some d => Date.ble cutoff d
      | none => false)
    blobs

/-- Selection of `download_date` (line 165): records with
`_blob_modified_date(b) == target` (`None` never equals a date). -/
def download_date_filter (target : Date) (blobs : List Blob) :
    Except String (List Blob) :=
  filterModified (fun md => md = some target) blobs

/-- Selection of `download_range` (lines 182-185): records with a truthy
normalized date satisfying `start <= date <= end`. -/
def download_range_filter (start finish : Date) (blobs : List Blob) :
    Except String (List Blob) :=
  filterModified
    (fun md => match md with
      | some d => Date.ble start d && Date.ble d finish
      | none => false)
    blobs

/-- Records downloaded by `download_all` (lines 140-147): every listed
blob, no filtering. -/
def download_all_select (blobs : List Blob) : List Blob :=
  blobs

/-- Embedding of the `download_since` pipeline (lines 150-158) up to the
selection the code then downloads: parse the cutoff argument, then
filter the listing.  The `listing` parameter stands for the records
`list_blobs` would return; the parse runs before that network call, so a
parse failure yields the same error for every possible listing. -/
def download_since (since : String) (listing : List Blob) :
    Except String (List Blob) := do
  let cutoff ← _parse_yyyy_mm_dd since
  download_since_filter cutoff listing

/-- Embedding of the `download_date` pipeline (lines 161-166) up to the
selection the code then downloads. -/
def download_date (target_date : String) (listing : List Blob) :
    Except String (List Blob) := do
  let target ← _parse_yyyy_mm_dd target_date
  download_date_filter target listing

/-- Embedding of the `download_range` pipeline (lines 169-186) up to the
selection the code then downloads: parse both arguments, raise
`ValueError("End date must be the same as or after start date.")` when
`end < start`, and only then filter the listing. -/
def download_range (start_date end_date : String) (listing : List Blob) :
    Except String (List Blob) := do
  let start ← _parse_yyyy_mm_dd start_date
  let finish ← _parse_yyyy_mm_dd end_date
  if Date.blt finish start then
    .error "End date must be the same as or after start date."
  else
    download_range_filter start finish listing

/-! ### Embedding of `urllib.parse.urlparse` and the URL helpers -/

/-- ASCII lower-casing of a character, written as an explicit table
(extensionally equal to `Char.toLower`: the letters `A`-`Z` map to
`a`-`z`, everything else is unchanged; Python `str.lower()` agrees on
the ASCII inputs this model handles). -/
def asciiLower : Char → Char
  | 'A' => 'a' | 'B' => 'b' | 'C' => 'c' | 'D' => 'd' | 'E' => 'e'
  | 'F' => 'f' | 'G' => 'g' | 'H' => 'h' | 'I' => 'i' | 'J' => 'j'
  | 'K' => 'k' | 'L' => 'l' | 'M' => 'm' | 'N' => 'n' | 'O' => 'o'
  | 'P' => 'p' | 'Q' => 'q' | 'R' => 'r' | 'S' => 's' | 'T' => 't'
  | 'U' => 'u' | 'V' => 'v' | 'W' => 'w' | 'X' => 'x' | 'Y' => 'y'
  | 'Z' => 'z'
  | c => c

/-- Character class `scheme_chars` of `urllib.parse`. -/
def schemeChar (c : Char) : Bool :=
  c.isAlpha || c.isDigit || c = '+' || c = '-' || c = '.'

/-- Split a list at the first occurrence of a character: the part
before, and the part after (Python `s.split(c, 1)` when `c` occurs). -/
def splitOnce (c : Char) : List Char → Option (List Char × List Char)
  | [] => none
  | x :: xs =>
    if x = c then some ([], xs)
    else (splitOnce c xs).map (fun p => (x :: p.1, p.2))

/-- Netloc delimiter set of `_splitnetloc` (`'/?#'`). -/
def netlocDelim (c : Char) : Bool :=
  c = '/' || c = '?' || c = '#'

/-- Result record of `urlsplit`: scheme, netloc, path, query, fragment,
each as a character list. -/
structure UrlSplitResult where
  scheme : List Char
  netloc : List Char
  path : List Char
  query : List Char
  fragment : List Char
deriving DecidableEq, Repr

/-- Embedding of CPython 3.11 `urllib.parse.urlsplit` (with the default
`allow_fragments=True`): remove the unsafe bytes tab/CR/LF, detect and
lower-case a scheme, split a `//`-introduced netloc at the first of
`/?#`, then split off the fragment at the first `#` and the query at the
first `?`.  The CPython `ValueError` for mismatched IPv6 brackets is
kept; a well-bracketed host would be validated against the `ipaddress`
module, which this model conservatively rejects (no URL this program
handles has a bracketed host), and a non-ASCII netloc would be checked
under NFKC normalization, which this model likewise rejects. -/
def pyUrlsplit (url0 : List Char) : Except String UrlSplitResult :=
  let url1 := url0.filter (fun c => ¬(c = '\t' ∨ c = '\r' ∨ c = '\n'))
  let (scheme, url2) :=
    match splitOnce ':' url1 with
    | some (pre, post) =>
      if pre ≠ [] && (match pre.head? with
          | some c => c.isAlpha
          | none => false) && pre.all schemeChar then
        (pre.map asciiLower, post)
      else ([], url1)
    | none => ([], url1)
  let (netloc, url3) :=
    match url2 with
    | '/' :: '/' :: rest =>
      (rest.takeWhile (fun c => ¬netlocDelim c),
       rest.dropWhile (fun c => ¬netlocDelim c))
    | _ => ([], url2)
  if ('[' ∈ netloc ∧ ']' ∉ netloc) ∨ (']' ∈ netloc ∧ '[' ∉ netloc) then
    .error "Invalid IPv6 URL"
  else if '[' ∈ netloc ∧ ']' ∈ netloc then
    .error "bracketed host not modelled"
  else if ¬netloc.all (fun c => c.toNat < 128) then
    .error "non-ASCII netloc not modelled"
  else
    let (url4, fragment) :=
      match splitOnce '#' url3 with
      | some (pre, post) => (pre, post)
      | none => (url3, [])
    let (path, query) :=
      match splitOnce '?' url4 with
      | some (pre, post) => (pre, post)
      | none => (url4, [])
    .ok ⟨scheme, netloc, path, query, fragment⟩

/-- Scheme list `uses_params` of `urllib.parse`. -/
def pyUsesParams : List (List Char) :=
  (["", "ftp", "hdl", "prospero", "http", "imap",
    "https", "shttp", "rtsp", "rtspu", "sip", "sips",
    "mms", "sftp", "tel"]).map String.data

/-- Last index of a character in a list (Python `str.rfind`). -/
def rIdxOfChar (c : Char) (l : List Char) : Option Nat :=
  match idxOfChar c l.reverse with
  | some i => some (l.length - 1 - i)
  | none => none

/-- First index of a character at or after a start position (Python
`str.find(c, start)`). -/
def idxOfCharFrom (c : Char) (l : List Char) (start : Nat) : Option Nat :=
  (idxOfChar c (l.drop start)).map (· + start)

/-- Embedding of `urllib.parse._splitparams`, reached only when `;`
occurs in the path: split the params off the last path segment. -/
def pySplitparams (url : List Char) : List Char × List Char :=
  if '/' ∈ url then
    match rIdxOfChar '/' url with
    | some j =>
      match idxOfCharFrom ';' url j with
      | some i => (url.take i, url.drop (i + 1))
      | none => (url, [])
    | none => (url, [])
  else
    match idxOfChar ';' url with
    | some i => (url.take i, url.drop (i + 1))
    | none => (url, [])

/-- Result record of `urlparse` (the fields `_sas_params` and
`_base_url` read). -/
structure UrlParseResult where
  scheme : List Char
  netloc : List Char
  path : List Char
  params : List Char
  query : List Char
  fragment : List Char
deriving DecidableEq, Repr

/-- Embedding of CPython 3.11 `urllib.parse.urlparse`: `urlsplit`, then
split `;params` off the path when the scheme uses params. -/
def pyUrlparse (url : List Char) : Except String UrlParseResult := do
  let r ← pyUrlsplit url
  if pyUsesParams.contains r.scheme ∧ ';' ∈ r.path then
    let (p, params) := pySplitparams r.path
    return ⟨r.scheme, r.netloc, p, params, r.query, r.fragment⟩
  else
    return ⟨r.scheme, r.netloc, r.path, [], r.query, r.fragment⟩

/-- Embedding of `_sas_params` (lines 39-42): the query string of the
parsed URL. -/
def _sas_params (sas_url : String) : Except String String := do
  let parsed ← pyUrlparse sas_url.data
  return ⟨parsed.query⟩

/-- Embedding of `_base_url` (lines 45-48): the f-string
`f"{parsed.scheme}://{parsed.netloc}{parsed.path}"`. -/
def _base_url (sas_url : String) : Except String String := do
  let parsed ← pyUrlparse sas_url.data
  return ⟨parsed.scheme⟩ ++ "://" ++ ⟨parsed.netloc⟩ ++ ⟨parsed.path⟩

/-! ### Embedding of the paginated listing engine -/

/-- One parsed response of the container-listing endpoint: the blob
records of the page (lines 67-78) and the text of the top-level
`NextMarker` element, `findtext` returning `none` when the element is
absent and possibly the empty string when present but empty
(line 80). -/
structure Page where
  blobs : List Blob
  nextMarker : Option String
deriving DecidableEq, Repr

/-- Request URL built by each iteration of the `list_blobs` loop (lines
58-61): the listing URL, plus `&marker={marker}` when `marker` is
truthy. -/
def listUrl (base params : String) (marker : Option String) : String :=
  let url := base ++ "?restype=container&comp=list&" ++ params
  match marker with
  | some m => if m = "" then url else url ++ "&marker=" ++ m
  | none => url

/-- Embedding of the `while True` pagination loop of `list_blobs`
(lines 58-85), with the network abstracted as a function from request
URL to parsed page and an explicit fuel bound (`none` = fuel exhausted,
which models only non-termination, never an early exit).  Returns the
list of request URLs issued, in order, and the accumulated records.
Each iteration requests `listUrl base params marker`, appends the
page's records, and continues with `marker := next_marker` exactly when
`next_marker` is truthy (present and nonempty). -/
def list_blobs_go (service : String → Page) (base params : String) :
    Nat → Option String → Option (List String × List Blob)
  | 0, _ => none
  | fuel + 1, marker =>
    let url := listUrl base params marker
    let page := service url
    match page.nextMarker with
    | some m =>
      if m = "" then some ([url], page.blobs)
      else
        match list_blobs_go service base params fuel (some m) with
        | some (urls, blobs) => some (url :: urls, page.blobs ++ blobs)
        | none => none
    | none => some ([url], page.blobs)

/-- Embedding of `list_blobs` (lines 51-85): split the SAS URL into base
and token, then run the pagination loop starting with no marker. -/
def list_blobs (service : String → Page) (sas_url : String) (fuel : Nat) :
    Except String (Option (List String × List Blob)) := do
  let base ← _base_url sas_url
  let params ← _sas_params sas_url
  return list_blobs_go service base params fuel none

/-- Chain predicate describing exactly the request sequences the
pagination loop may issue from a given marker: a single request whose
response carries an absent or empty `NextMarker`, or a request whose
response carries a nonempty `NextMarker` `m` followed by a chain whose
next request includes `marker=m`. -/
inductive PageChain (service : String → Page) (base params : String) :
    Option String → List String → Prop
  | stop (marker : Option String)
      (h : (service (listUrl base params marker)).nextMarker = none ∨
           (service (listUrl base params marker)).nextMarker = some "") :
      PageChain service base params marker [listUrl base params marker]
  | step (marker : Option String) (m : String) (urls : List String)
      (h : (service (listUrl base params marker)).nextMarker = some m)
      (hm : m ≠ "")
      (rest : PageChain service base params (some m) urls) :
      PageChain service base params marker
        (listUrl base params marker :: urls)

/-! ### Concrete sample data used by witnesses and counterexamples -/

/-- Record last modified at 2026-02-11T00:00:00Z (HTTP-date form). -/
def blobFeb11a : Blob := ⟨"a.csv", some "Wed, 11 Feb 2026 00:00:00 GMT", 10⟩

/-- Record last modified at 2026-02-11T23:59:59Z (HTTP-date form). -/
def blobFeb11b : Blob := ⟨"b.csv", some "Wed, 11 Feb 2026 23:59:59 GMT", 20⟩

/-- Record last modified at 2026-02-12T00:00:01Z (HTTP-date form). -/
def blobFeb12 : Blob := ⟨"c.csv", some "Thu, 12 Feb 2026 00:00:01 GMT", 30⟩

/-- Record whose `Last-Modified` string is present but not an RFC-1123
date. -/
def blobBadStamp : Blob := ⟨"r.csv", some "notadate", 5⟩

/-- Record whose `Last-Modified` element was absent from the listing. -/
def blobNoStamp : Blob := ⟨"n.csv", none, 7⟩

/-- The three-record listing of the spec's exact-day example. -/
def sampleDayBlobs : List Blob := [blobFeb11a, blobFeb11b, blobFeb12]

/-- Base URL of the sample listing service. -/
def sampleBase : String := "https://acct.example.net/c"

/-- SAS token of the sample listing service. -/
def sampleParams : String := "sv=1&sig=s"

/-- First response page of the sample service: two records and a
nonempty `NextMarker`. -/
def samplePage1 : Page := ⟨[blobFeb11a, blobFeb11b], some "m1"⟩

/-- Second response page of the sample service: one record, no
`NextMarker`. -/
def samplePage2 : Page := ⟨[blobFeb12], none⟩

/-- Two-page sample listing service: the marker-`m1` request gets page
2, every other request gets page 1. -/
def sampleService (url : String) : Page :=
  if url = listUrl sampleBase sampleParams (some "m1") then samplePage2
  else samplePage1

/-- Test for the error case of an `Except` value (Python: the call
raised). -/
def isErr {e a : Type} : Except e a → Bool
  | .error _ => true
  | .ok _ => false

/-- Strict `YYYY-MM-DD` shape as the spec's words read: exactly four
digits, a hyphen, two digits, a hyphen, two digits.  This is the
spec-side definition, kept to compare the documented argument format
with the code's actual `%Y-%m-%d` parse (which also accepts one-digit
months and days). -/
def specConformsYYYYMMDD (s : String) : Bool :=
  match s.data with
  | [y1, y2, y3, y4, '-', m1, m2, '-', d1, d2] =>
    y1.isDigit && y2.isDigit && y3.isDigit && y4.isDigit &&
      m1.isDigit && m2.isDigit && d1.isDigit && d2.isDigit
  | _ => false

/-- Character set of a netloc as this development's URL lemmas assume
it: ASCII, no netloc delimiter, no IPv6 bracket, none of the unsafe
bytes `urlsplit` strips. -/
def netlocOkChar (c : Char) : Bool :=
  c.toNat < 128 && !netlocDelim c && c ≠ '[' && c ≠ ']' &&
    c ≠ '\t' && c ≠ '\r' && c ≠ '\n'

/-- Character allowed in a URL path or blob name for the round-trip
lemmas: not a query/fragment delimiter and not an unsafe byte. -/
def pathPlainChar (c : Char) : Bool :=
  c ≠ '?' && c ≠ '#' && c ≠ '\t' && c ≠ '\r' && c ≠ '\n'

/-- Character allowed in a query string for the round-trip lemmas: not
a fragment delimiter and not an unsafe byte (`?` may recur inside a
query). -/
def queryOkChar (c : Char) : Bool :=
  c ≠ '#' && c ≠ '\t' && c ≠ '\r' && c ≠ '\n'

/-! ### Helper lemmas -/

/-- Pure view of a record's filtering outcome: the predicate outcome the
comprehension computes when no record raises. -/
def modifiedPasses (p : Option Date → Bool) (b : Blob) : Bool :=
  match _blob_modified_date b with
  | .ok md => p md
  | .error _ => false

/-- Outcome of one record under the `download_since` comprehension when
no record raises: a defined normalized date on or after the cutoff. -/
def sinceKeeps (cutoff : Date) (b : Blob) : Bool :=
  match _blob_modified_date b with
  | .ok (some d) => Date.ble cutoff d
  | .ok none => false
  | .error _ => false

/-- Outcome of one record under the `download_date` comprehension when
no record raises: a normalized date equal to the target. -/
def exactDayKeeps (target : Date) (b : Blob) : Bool :=
  _blob_modified_date b = .ok (some target)

/-- Outcome of one record under the `download_range` comprehension when
no record raises: a defined normalized date inside the inclusive
range. -/
def rangeKeeps (start finish : Date) (b : Blob) : Bool :=
  match _blob_modified_date b with
  | .ok (some d) => Date.ble start d && Date.ble d finish
  | .ok none => false
  | .error _ => false


theorem filterModified_ok_eq (p : Option Date → Bool) :
    ∀ (blobs out : List Blob), filterModified p blobs = .ok out →
      out = blobs.filter (modifiedPasses p) := by
  intro blobs
  induction blobs with
  | nil =>
    intro out h
    simp only [filterModified] at h
    cases h
    rfl
  | cons b rest ih =>
    intro out h
    simp only [filterModified] at h
    cases h1 : _blob_modified_date b with
    | error e =>
      rw [h1] at h
      simp [Bind.bind, Except.bind] at h
    | ok md =>
      rw [h1] at h
      cases h2 : filterModified p rest with
      | error e =>
        rw [h2] at h
        simp [Bind.bind, Except.bind] at h
      | ok tail =>
        rw [h2] at h
        simp only [Bind.bind, Except.bind, pure, Except.pure] at h
        cases h
        rw [List.filter_cons]
        have hpass : modifiedPasses p b = p md := by
          simp [modifiedPasses, h1]
        rw [hpass]
        rw [ih tail h2]

theorem filterModified_congr (p q : Option Date → Bool)
    (hpq : ∀ md, p md = q md) :
    ∀ blobs : List Blob, filterModified p blobs = filterModified q blobs := by
  intro blobs
  induction blobs with
  | nil => rfl
  | cons b rest ih =>
    simp only [filterModified, ih, hpq]

theorem Date.ble_self (a : Date) : Date.ble a a = true := by
  simp [Date.ble]

theorem Date.ble_antisymm_eq (d x : Date) :
    (Date.ble d x && Date.ble x d) = decide (x = d) := by
  rcases d with ⟨dy, dm, dd⟩
  rcases x with ⟨xy, xm, xd⟩
  rw [Bool.eq_iff_iff]
  simp only [Bool.and_eq_true, Date.ble, Date.blt, Bool.or_eq_true,
    decide_eq_true_eq, Date.mk.injEq]
  omega

theorem sinceKeeps_eq (cutoff : Date) (b : Blob) :
    modifiedPasses
      (fun md => match md with
        | some d => Date.ble cutoff d
        | none => false) b = sinceKeeps cutoff b := by
  unfold modifiedPasses sinceKeeps
  cases h : _blob_modified_date b with
  | ok md => cases md <;> rfl
  | error e => rfl

theorem exactDayKeeps_eq (target : Date) (b : Blob) :
    modifiedPasses (fun md => md = some target) b = exactDayKeeps target b := by
  unfold modifiedPasses exactDayKeeps
  cases h : _blob_modified_date b with
  | ok md => simp
  | error e => simp

theorem rangeKeeps_eq (start finish : Date) (b : Blob) :
    modifiedPasses
      (fun md => match md with
        | some d => Date.ble start d && Date.ble d finish
        | none => false) b = rangeKeeps start finish b := by
  unfold modifiedPasses rangeKeeps
  cases h : _blob_modified_date b with
  | ok md => cases md <;> rfl
  | error e => rfl

theorem download_since_filter_ok (cutoff : Date) (blobs out : List Blob)
    (h : download_since_filter cutoff blobs = .ok out) :
    out = blobs.filter (sinceKeeps cutoff) := by
  rw [filterModified_ok_eq _ blobs out h]
  exact List.filter_congr (fun b _ => sinceKeeps_eq cutoff b)

theorem download_date_filter_ok (target : Date) (blobs out : List Blob)
    (h : download_date_filter target blobs = .ok out) :
    out = blobs.filter (exactDayKeeps target) := by
  rw [filterModified_ok_eq _ blobs out h]
  exact List.filter_congr (fun b _ => exactDayKeeps_eq target b)

theorem download_range_filter_ok (start finish : Date) (blobs out : List Blob)
    (h : download_range_filter start finish blobs = .ok out) :
    out = blobs.filter (rangeKeeps start finish) := by
  rw [filterModified_ok_eq _ blobs out h]
  exact List.filter_congr (fun b _ => rangeKeeps_eq start finish b)

/-! ### Claim theorems -/

/-- C3: For every list of records and target date, the `ExactDay`
filter (`download_date`, lines 161-166) retains exactly those records
whose normalized UTC calendar date equals the target; in particular
target 2026-02-11 over records timestamped 2026-02-11T00:00:00Z,
2026-02-11T23:59:59Z and 2026-02-12T00:00:01Z selects exactly the
first two. -/
theorem C3_exactDay_retains_exactly :
    (∀ (target : Date) (blobs out : List Blob),
        download_date_filter target blobs = .ok out →
        out = blobs.filter (exactDayKeeps target)) ∧
    download_date_filter ⟨2026, 2, 11⟩ sampleDayBlobs =
      .ok [blobFeb11a, blobFeb11b] :=
  ⟨download_date_filter_ok, by decide⟩

/-- Closed instance of `C3_exactDay_retains_exactly` at the spec's
three-record example. -/
theorem C3_exactDay_retains_exactly_witness :
    download_date_filter ⟨2026, 2, 11⟩ sampleDayBlobs =
      .ok [blobFeb11a, blobFeb11b] ∧
    [blobFeb11a, blobFeb11b] =
      sampleDayBlobs.filter (exactDayKeeps ⟨2026, 2, 11⟩) :=
  ⟨by decide,
   C3_exactDay_retains_exactly.1 ⟨2026, 2, 11⟩ sampleDayBlobs
     [blobFeb11a, blobFeb11b] (by decide)⟩

/-- C4: For every list of records and cutoff date, the `SinceInclusive`
filter (`download_since`, lines 150-158) retains exactly those records
whose normalized UTC calendar date is defined and on or after the
cutoff (the cutoff day itself included). -/
theorem C4_sinceInclusive_retains_exactly :
    ∀ (cutoff : Date) (blobs out : List Blob),
      download_since_filter cutoff blobs = .ok out →
      out = blobs.filter (sinceKeeps cutoff) :=
  download_since_filter_ok

/-- Closed instance of `C4_sinceInclusive_retains_exactly`: with cutoff
2026-02-12 the record modified at 2026-02-12T00:00:01Z (on the cutoff
day itself) is retained and the two 2026-02-11 records are not. -/
theorem C4_sinceInclusive_retains_exactly_witness :
    download_since_filter ⟨2026, 2, 12⟩ sampleDayBlobs = .ok [blobFeb12] ∧
    [blobFeb12] = sampleDayBlobs.filter (sinceKeeps ⟨2026, 2, 12⟩) :=
  ⟨by decide,
   C4_sinceInclusive_retains_exactly ⟨2026, 2, 12⟩ sampleDayBlobs
     [blobFeb12] (by decide)⟩

/-- C8: Every filter's output is a subsequence of its input: `All`
(`download_all`) returns the input itself, and the three date-scoped
comprehensions, when they return, return a sublist of the input
(relative order preserved, no new and no duplicated records). -/
theorem C8_filter_output_sublist :
    (∀ blobs : List Blob, download_all_select blobs = blobs) ∧
    (∀ (cutoff : Date) (blobs out : List Blob),
        download_since_filter cutoff blobs = .ok out → out.Sublist blobs) ∧
    (∀ (target : Date) (blobs out : List Blob),
        download_date_filter target blobs = .ok out → out.Sublist blobs) ∧
    (∀ (start finish : Date) (blobs out : List Blob),
        download_range_filter start finish blobs = .ok out →
          out.Sublist blobs) := by
  refine ⟨fun _ => rfl, ?_, ?_, ?_⟩
  · intro cutoff blobs out h
    rw [download_since_filter_ok cutoff blobs out h]
    exact List.filter_sublist blobs
  · intro target blobs out h
    rw [download_date_filter_ok target blobs out h]
    exact List.filter_sublist blobs
  · intro start finish blobs out h
    rw [download_range_filter_ok start finish blobs out h]
    exact List.filter_sublist blobs

/-- Closed instance of `C8_filter_output_sublist` on the sample
listing. -/
theorem C8_filter_output_sublist_witness :
    download_since_filter ⟨2026, 2, 12⟩ sampleDayBlobs = .ok [blobFeb12] ∧
    List.Sublist [blobFeb12] sampleDayBlobs :=
  ⟨by decide,
   C8_filter_output_sublist.2.1 ⟨2026, 2, 12⟩ sampleDayBlobs
     [blobFeb12] (by decide)⟩

/-- C10: For every date `d` and every list of records, the
`RangeInclusive` filter with `start = end = d` (`download_range`)
selects exactly the same records as the `ExactDay` filter with target
`d` (`download_date`), records without a defined normalized date being
excluded by both. -/
theorem C10_degenerate_range_eq_exactDay (d : Date) (blobs : List Blob) :
    download_range_filter d d blobs = download_date_filter d blobs := by
  unfold download_range_filter download_date_filter
  apply filterModified_congr
  intro md
  cases md with
  | none => rfl
  | some x =>
    show (Date.ble d x && Date.ble x d) = decide (some x = some d)
    rw [Date.ble_antisymm_eq]
    simp

theorem parse_yyyy_mm_dd_isErr_eq (s : String)
    (h : isErr (_parse_yyyy_mm_dd s) = true) :
    _parse_yyyy_mm_dd s =
      .error ("Invalid date '" ++ s ++ "'. Expected YYYY-MM-DD.") := by
  unfold _parse_yyyy_mm_dd at h ⊢
  cases hp : strptimeYmd s with
  | none => rfl
  | some t =>
    obtain ⟨y, m, d⟩ := t
    rw [hp] at h
    by_cases hv : 1 ≤ y ∧ y ≤ 9999 ∧ 1 ≤ m ∧ m ≤ 12 ∧ 1 ≤ d ∧
        d ≤ daysInMonth y m
    · simp [hv, isErr] at h
    · simp [hv]

/-- C5: For every pair of argument strings parsing to dates with the
end strictly before the start, `download_range` raises the validation
error before the listing is consulted (the same error for every
possible listing); with end on or after start the range operation
proceeds to the filtering of the listing. -/
theorem C5_range_validation (start_s end_s : String) (ds de : Date)
    (hs : _parse_yyyy_mm_dd start_s = .ok ds)
    (he : _parse_yyyy_mm_dd end_s = .ok de) :
    (Date.blt de ds = true →
      ∀ listing : List Blob,
        download_range start_s end_s listing =
          .error "End date must be the same as or after start date.") ∧
    (Date.blt de ds = false →
      ∀ listing : List Blob,
        download_range start_s end_s listing =
          download_range_filter ds de listing) := by
  constructor <;> intro hlt listing <;>
    simp [download_range, hs, he, hlt, Bind.bind, Except.bind]

/-- Closed instance of `C5_range_validation` at the spec's example:
start 2026-02-03, end 2026-02-01 fails validation for every listing
(instantiated at the sample listing). -/
theorem C5_range_validation_witness :
    _parse_yyyy_mm_dd "2026-02-03" = .ok ⟨2026, 2, 3⟩ ∧
    _parse_yyyy_mm_dd "2026-02-01" = .ok ⟨2026, 2, 1⟩ ∧
    Date.blt ⟨2026, 2, 1⟩ ⟨2026, 2, 3⟩ = true ∧
    download_range "2026-02-03" "2026-02-01" sampleDayBlobs =
      .error "End date must be the same as or after start date." :=
  ⟨by decide, by decide, by decide,
   (C5_range_validation "2026-02-03" "2026-02-01" ⟨2026, 2, 3⟩ ⟨2026, 2, 1⟩
     (by decide) (by decide)).1 (by decide) sampleDayBlobs⟩

/-- Counterexample to C6 as stated: the argument string `2026-2-3` does
not conform to `YYYY-MM-DD` (its month and day are one digit), yet the
date-scoped operation accepts it (the `%Y-%m-%d` parse succeeds, so no
validation error is raised and the run proceeds). -/
theorem C6_counterexample :
    specConformsYYYYMMDD "2026-2-3" = false ∧
    _parse_yyyy_mm_dd "2026-2-3" = .ok ⟨2026, 2, 3⟩ ∧
    download_since "2026-2-3" sampleDayBlobs = .ok sampleDayBlobs :=
  ⟨by decide, by decide, by decide⟩

/-- C6 (amended): For every date argument string rejected by the code's
`%Y-%m-%d` parse, each date-scoped operation fails with the validation
error `Invalid date '...'. Expected YYYY-MM-DD.` whose message contains
the offending string, and does so identically for every possible
listing (before any network call). -/
theorem C6_malformed_date_fails (s : String)
    (h : isErr (_parse_yyyy_mm_dd s) = true) :
    ∀ listing : List Blob,
      download_since s listing =
        .error ("Invalid date '" ++ s ++ "'. Expected YYYY-MM-DD.") ∧
      download_date s listing =
        .error ("Invalid date '" ++ s ++ "'. Expected YYYY-MM-DD.") ∧
      (∀ end_s : String,
        download_range s end_s listing =
          .error ("Invalid date '" ++ s ++ "'. Expected YYYY-MM-DD.")) ∧
      (∀ (start_s : String) (ds : Date),
        _parse_yyyy_mm_dd start_s = .ok ds →
        download_range start_s s listing =
          .error ("Invalid date '" ++ s ++ "'. Expected YYYY-MM-DD.")) ∧
      (∃ pre suf : String,
        "Invalid date '" ++ s ++ "'. Expected YYYY-MM-DD." =
          pre ++ s ++ suf) := by
  intro listing
  have he := parse_yyyy_mm_dd_isErr_eq s h
  refine ⟨?_, ?_, ?_, ?_, ⟨"Invalid date '", "'. Expected YYYY-MM-DD.", rfl⟩⟩
  · simp [download_since, he, Bind.bind, Except.bind]
  · simp [download_date, he, Bind.bind, Except.bind]
  · intro end_s
    simp [download_range, he, Bind.bind, Except.bind]
  · intro start_s ds hds
    simp [download_range, hds, he, Bind.bind, Except.bind]

/-- Closed instance of `C6_malformed_date_fails` at the spec's example
`02-11-2026`, instantiated at the sample listing. -/
theorem C6_malformed_date_fails_witness :
    isErr (_parse_yyyy_mm_dd "02-11-2026") = true ∧
    download_since "02-11-2026" sampleDayBlobs =
      .error "Invalid date '02-11-2026'. Expected YYYY-MM-DD." :=
  ⟨by decide,
   (C6_malformed_date_fails "02-11-2026" (by decide) sampleDayBlobs).1⟩

/-- Counterexample to C1 as stated: a record whose `last_modified`
string is present but not an RFC-1123 date does not normalize to
absent — `_blob_modified_date` propagates the `ValueError` raised by
`parsedate_to_datetime`, and a date-scoped comprehension over a listing
containing the record aborts with that error instead of excluding the
record. -/
theorem C1_counterexample :
    _blob_modified_date blobBadStamp =
      .error "Invalid date value or format \"notadate\"" ∧
    download_since_filter ⟨2026, 1, 1⟩ [blobBadStamp] =
      .error "Invalid date value or format \"notadate\"" ∧
    download_date_filter ⟨2026, 1, 1⟩ [blobBadStamp] =
      .error "Invalid date value or format \"notadate\"" ∧
    download_range_filter ⟨2026, 1, 1⟩ ⟨2026, 1, 2⟩ [blobBadStamp] =
      .error "Invalid date value or format \"notadate\"" :=
  ⟨by decide, by decide, by decide, by decide⟩

/-- C1 (amended): A record whose `last_modified` is absent or empty
normalizes to `none`, is excluded from every date-scoped filter that
returns, and is included under `All`; a record whose `last_modified` is
a present, nonempty string that `parsedate_to_datetime` rejects instead
propagates that `ValueError` out of `_blob_modified_date` (aborting the
date-scoped operation). -/
theorem C1_missing_timestamp_excluded (b : Blob)
    (h : b.last_modified = none ∨ b.last_modified = some "") :
    _blob_modified_date b = .ok none ∧
    (∀ (cutoff : Date) (blobs out : List Blob),
        download_since_filter cutoff blobs = .ok out → b ∉ out) ∧
    (∀ (target : Date) (blobs out : List Blob),
        download_date_filter target blobs = .ok out → b ∉ out) ∧
    (∀ (start finish : Date) (blobs out : List Blob),
        download_range_filter start finish blobs = .ok out → b ∉ out) ∧
    (∀ blobs : List Blob, b ∈ blobs → b ∈ download_all_select blobs) ∧
    (∀ (name s e : String) (sz : Int), s ≠ "" →
        parsedate_to_datetime s = .error e →
        _blob_modified_date ⟨name, some s, sz⟩ = .error e) := by
  have hmd : _blob_modified_date b = .ok none := by
    rcases h with h | h <;>
      simp [_blob_modified_date, lastModifiedFalsy, h]
  refine ⟨hmd, ?_, ?_, ?_, fun _ hb => hb, ?_⟩
  · intro cutoff blobs out hout
    rw [download_since_filter_ok cutoff blobs out hout]
    intro hmem
    have := (List.mem_filter.mp hmem).2
    simp [sinceKeeps, hmd] at this
  · intro target blobs out hout
    rw [download_date_filter_ok target blobs out hout]
    intro hmem
    have := (List.mem_filter.mp hmem).2
    simp [exactDayKeeps, hmd] at this
  · intro start finish blobs out hout
    rw [download_range_filter_ok start finish blobs out hout]
    intro hmem
    have := (List.mem_filter.mp hmem).2
    simp [rangeKeeps, hmd] at this
  · intro name s e sz hs hp
    simp [_blob_modified_date, lastModifiedFalsy, hs, _parse_last_modified,
      hp, Bind.bind, Except.bind]

/-- Closed instance of `C1_missing_timestamp_excluded` at a record with
an absent timestamp: it normalizes to `none` and is dropped by a
date-scoped filter that returns, while `All` keeps it. -/
theorem C1_missing_timestamp_excluded_witness :
    (blobNoStamp.last_modified = none ∨ blobNoStamp.last_modified = some "") ∧
    _blob_modified_date blobNoStamp = .ok none ∧
    download_since_filter ⟨2026, 1, 1⟩ [blobNoStamp, blobFeb12] =
      .ok [blobFeb12] ∧
    blobNoStamp ∉ [blobFeb12] ∧
    blobNoStamp ∈ download_all_select [blobNoStamp, blobFeb12] :=
  ⟨Or.inl rfl,
   (C1_missing_timestamp_excluded blobNoStamp (Or.inl rfl)).1,
   by decide,
   (C1_missing_timestamp_excluded blobNoStamp (Or.inl rfl)).2.1
     ⟨2026, 1, 1⟩ [blobNoStamp, blobFeb12] [blobFeb12] (by decide),
   (C1_missing_timestamp_excluded blobNoStamp (Or.inl rfl)).2.2.2.2.1
     [blobNoStamp, blobFeb12] (by decide)⟩

/-- C2: Date normalization converts the parsed instant to UTC and
truncates to the calendar date: `Tue, 11 Feb 2026 12:00:00 GMT`
normalizes to 2026-02-11, the non-UTC offset example
`Tue, 11 Feb 2026 23:30:00 -0500` normalizes to 2026-02-12, and every
timestamp parsed without an explicit offset is interpreted as already
being UTC (the record's date is the one computed with offset 0). -/
theorem C2_normalization_utc :
    _blob_modified_date ⟨"x", some "Tue, 11 Feb 2026 12:00:00 GMT", 0⟩ =
      .ok (some ⟨2026, 2, 11⟩) ∧
    _blob_modified_date ⟨"x", some "Tue, 11 Feb 2026 23:30:00 -0500", 0⟩ =
      .ok (some ⟨2026, 2, 12⟩) ∧
    (∀ (name s : String) (sz : Int) (dt : PyDatetime),
        parsedate_to_datetime s = .ok dt → dt.tzoffset = none →
        _blob_modified_date ⟨name, some s, sz⟩ =
          .ok (some (PyDatetime.toUtcDate { dt with tzoffset := some 0 }))) := by
  refine ⟨by decide, by decide, ?_⟩
  intro name s sz dt hp hz
  have hs : ¬(s = "") := by
    intro hse
    subst hse
    simp [parsedate_to_datetime, pyParsedateTz] at hp
  simp [_blob_modified_date, lastModifiedFalsy, hs, _parse_last_modified,
    hp, hz, Bind.bind, Except.bind, pure, Except.pure]

/-- Closed instance of the no-offset clause of `C2_normalization_utc`:
`Wed, 11 Feb 2026 23:30:00` parses naive and is normalized as if it
were UTC, giving 2026-02-11 (not shifted). -/
theorem C2_normalization_utc_witness :
    parsedate_to_datetime "Wed, 11 Feb 2026 23:30:00" =
      .ok ⟨2026, 2, 11, 23, 30, 0, none⟩ ∧
    _blob_modified_date ⟨"n", some "Wed, 11 Feb 2026 23:30:00", 0⟩ =
      .ok (some (PyDatetime.toUtcDate ⟨2026, 2, 11, 23, 30, 0, some 0⟩)) :=
  ⟨by decide,
   C2_normalization_utc.2.2 "n" "Wed, 11 Feb 2026 23:30:00" 0
     ⟨2026, 2, 11, 23, 30, 0, none⟩ (by decide) rfl⟩

theorem list_blobs_go_chain (service : String → Page) (base params : String) :
    ∀ (fuel : Nat) (marker : Option String) (urls : List String)
      (blobs : List Blob),
      list_blobs_go service base params fuel marker = some (urls, blobs) →
      PageChain service base params marker urls ∧
      blobs = (urls.map (fun u => (service u).blobs)).flatten := by
  intro fuel
  induction fuel with
  | zero =>
    intro marker urls blobs h
    simp [list_blobs_go] at h
  | succ n ih =>
    intro marker urls blobs h
    simp only [list_blobs_go] at h
    split at h
    next m hm =>
      split at h
      next hme =>
        cases h
        exact ⟨PageChain.stop marker (Or.inr (hme ▸ hm)), by simp⟩
      next hme =>
        split at h
        next urls2 blobs2 hrec =>
          cases h
          obtain ⟨hchain, hjoin⟩ := ih (some m) urls2 blobs2 hrec
          exact ⟨PageChain.step marker m urls2 hm hme hchain, by simp [hjoin]⟩
        next hrec => exact Option.noConfusion h
    next hm =>
      cases h
      exact ⟨PageChain.stop marker (Or.inl hm), by simp⟩

/-- C7: For every service, SAS base/token and fuel bound, a completed
run of the pagination loop issues a request chain in which the first
request carries no marker, each response bearing a nonempty
`NextMarker` `m` is followed by exactly one request whose URL includes
`marker=m`, the run stops at the first response whose `NextMarker` is
absent or empty, and the returned records are the concatenation of the
pages' records in request order. -/
theorem C7_pagination_follows_markers (service : String → Page)
    (base params : String) (fuel : Nat) (urls : List String)
    (blobs : List Blob)
    (h : list_blobs_go service base params fuel none = some (urls, blobs)) :
    PageChain service base params none urls ∧
    blobs = (urls.map (fun u => (service u).blobs)).flatten :=
  list_blobs_go_chain service base params fuel none urls blobs h

/-- Closed instance of `C7_pagination_follows_markers` on the two-page
sample service: the run issues the unmarked request, then the request
with `marker=m1`, and returns the three records in page order. -/
theorem C7_pagination_follows_markers_witness :
    list_blobs_go sampleService sampleBase sampleParams 2 none =
      some ([listUrl sampleBase sampleParams none,
             listUrl sampleBase sampleParams (some "m1")],
            [blobFeb11a, blobFeb11b, blobFeb12]) ∧
    PageChain sampleService sampleBase sampleParams none
      [listUrl sampleBase sampleParams none,
       listUrl sampleBase sampleParams (some "m1")] ∧
    [blobFeb11a, blobFeb11b, blobFeb12] =
      (([listUrl sampleBase sampleParams none,
         listUrl sampleBase sampleParams (some "m1")]).map
        (fun u => (sampleService u).blobs)).flatten :=
  ⟨by decide,
   C7_pagination_follows_markers sampleService sampleBase sampleParams 2
     [listUrl sampleBase sampleParams none,
      listUrl sampleBase sampleParams (some "m1")]
     [blobFeb11a, blobFeb11b, blobFeb12] (by decide)⟩

theorem splitOnce_eq_none {c : Char} : ∀ {l : List Char}, c ∉ l →
    splitOnce c l = none := by
  intro l
  induction l with
  | nil => intro _; rfl
  | cons x xs ih =>
    intro h
    have hx : ¬(x = c) := fun he => h (he ▸ List.mem_cons_self x xs)
    have hxs : c ∉ xs := fun hm => h (List.mem_cons_of_mem x hm)
    simp [splitOnce, hx, ih hxs]

theorem splitOnce_append_first {c : Char} : ∀ {xs : List Char}
    (ys : List Char), c ∉ xs →
    splitOnce c (xs ++ c :: ys) = some (xs, ys) := by
  intro xs
  induction xs with
  | nil => intro ys _; simp [splitOnce]
  | cons x xt ih =>
    intro ys h
    have hx : ¬(x = c) := fun he => h (he ▸ List.mem_cons_self x xt)
    have hxs : c ∉ xt := fun hm => h (List.mem_cons_of_mem x hm)
    simp [splitOnce, hx, ih ys hxs]

theorem takeWhile_dropWhile_append_first {p : Char → Bool} :
    ∀ {xs : List Char} (ys : List Char) (y : Char),
    (∀ x ∈ xs, p x = true) → p y = false →
    (xs ++ y :: ys).takeWhile p = xs ∧
      (xs ++ y :: ys).dropWhile p = y :: ys := by
  intro xs
  induction xs with
  | nil =>
    intro ys y _ hy
    simp [List.takeWhile, List.dropWhile, hy]
  | cons x xt ih =>
    intro ys y hall hy
    have hx : p x = true := hall x (List.mem_cons_self x xt)
    have ht : ∀ z ∈ xt, p z = true := fun z hz =>
      hall z (List.mem_cons_of_mem x hz)
    obtain ⟨h1, h2⟩ := ih ys y ht hy
    simp [List.takeWhile, List.dropWhile, hx, h1, h2]

theorem schemeChar_facts {c : Char} (h : schemeChar c = true) :
    c ≠ ':' ∧ c ≠ '/' ∧ c ≠ '?' ∧ c ≠ '#' ∧ c ≠ '\t' ∧ c ≠ '\r' ∧
      c ≠ '\n' := by
  refine ⟨?_, ?_, ?_, ?_, ?_, ?_, ?_⟩ <;>
    (intro hc; subst hc; exact absurd h (by decide))

theorem asciiLower_schemeChar {c : Char} (h : schemeChar c = true) :
    schemeChar (asciiLower c) = true := by
  unfold asciiLower
  split <;> first | decide | exact h

theorem asciiLower_isAlpha {c : Char} (h : c.isAlpha = true) :
    (asciiLower c).isAlpha = true := by
  unfold asciiLower
  split <;> first | decide | exact h

theorem netlocOkChar_facts {c : Char} (h : netlocOkChar c = true) :
    netlocDelim c = false ∧ c ≠ '[' ∧ c ≠ ']' ∧ c.toNat < 128 ∧
      c ≠ '\t' ∧ c ≠ '\r' ∧ c ≠ '\n' := by
  simp only [netlocOkChar, Bool.and_eq_true, Bool.not_eq_true',
    decide_eq_true_eq] at h
  exact ⟨h.1.1.1.1.1.2, h.1.1.1.1.2, h.1.1.1.2, h.1.1.1.1.1.1, h.1.1.2,
    h.1.2, h.2⟩

theorem pathPlainChar_facts {c : Char} (h : pathPlainChar c = true) :
    c ≠ '?' ∧ c ≠ '#' ∧ c ≠ '\t' ∧ c ≠ '\r' ∧ c ≠ '\n' := by
  simp only [pathPlainChar, Bool.and_eq_true, decide_eq_true_eq] at h
  exact ⟨h.1.1.1.1, h.1.1.1.2, h.1.1.2, h.1.2, h.2⟩

theorem queryOkChar_facts {c : Char} (h : queryOkChar c = true) :
    c ≠ '#' ∧ c ≠ '\t' ∧ c ≠ '\r' ∧ c ≠ '\n' := by
  simp only [queryOkChar, Bool.and_eq_true, decide_eq_true_eq] at h
  exact ⟨h.1.1.1, h.1.1.2, h.1.2, h.2⟩

theorem pyUrlsplit_canonical (scheme netloc path query : List Char)
    (hne : scheme ≠ [])
    (hhead : ∀ c, scheme.head? = some c → c.isAlpha = true)
    (hs : ∀ c ∈ scheme, schemeChar c = true)
    (hn : ∀ c ∈ netloc, netlocOkChar c = true)
    (hp : ∀ c ∈ path, pathPlainChar c = true)
    (hph : path.head? = some '/' ∨ path = [])
    (hq : ∀ c ∈ query, queryOkChar c = true) :
    pyUrlsplit
        (scheme ++ ':' :: '/' :: '/' :: (netloc ++ (path ++ '?' :: query))) =
      .ok ⟨scheme.map asciiLower, netloc, path, query, []⟩ := by
  have hfilter : (scheme ++ ':' :: '/' :: '/' ::
        (netloc ++ (path ++ '?' :: query))).filter
        (fun c => ¬(c = '\t' ∨ c = '\r' ∨ c = '\n')) =
      scheme ++ ':' :: '/' :: '/' :: (netloc ++ (path ++ '?' :: query)) := by
    apply List.filter_eq_self.mpr
    intro a ha
    simp only [List.mem_append, List.mem_cons] at ha
    show decide (¬(a = '\t' ∨ a = '\r' ∨ a = '\n')) = true
    rcases ha with ha | ha | ha | ha | ha | ha | ha | ha
    · obtain ⟨_, _, _, _, f5, f6, f7⟩ := schemeChar_facts (hs a ha)
      simp [f5, f6, f7]
    · subst ha; decide
    · subst ha; decide
    · subst ha; decide
    · obtain ⟨_, _, _, _, f5, f6, f7⟩ := netlocOkChar_facts (hn a ha)
      simp [f5, f6, f7]
    · obtain ⟨_, _, f3, f4, f5⟩ := pathPlainChar_facts (hp a ha)
      simp [f3, f4, f5]
    · subst ha; decide
    · obtain ⟨_, f2, f3, f4⟩ := queryOkChar_facts (hq a ha)
      simp [f2, f3, f4]
  have hcolon : ':' ∉ scheme := fun hm => (schemeChar_facts (hs _ hm)).1 rfl
  have hsplit1 : splitOnce ':'
      (scheme ++ ':' :: '/' :: '/' :: (netloc ++ (path ++ '?' :: query))) =
      some (scheme, '/' :: '/' :: (netloc ++ (path ++ '?' :: query))) :=
    splitOnce_append_first _ hcolon
  have hcond : (scheme ≠ [] && (match scheme.head? with
      | some c => c.isAlpha
      | none => false) && scheme.all schemeChar) = true := by
    have h2 : (match scheme.head? with
        | some c => c.isAlpha
        | none => false) = true := by
      cases hsch : scheme with
      | nil => exact absurd hsch hne
      | cons c cs =>
        have : scheme.head? = some c := by rw [hsch]; rfl
        simpa using hhead c this
    have h3 : scheme.all schemeChar = true := List.all_eq_true.mpr hs
    simp [hne, h2, h3]
  have hxs : ∀ x ∈ netloc,
      (fun c => decide (¬(netlocDelim c = true))) x = true := by
    intro x hx
    show decide (¬(netlocDelim x = true)) = true
    simp [(netlocOkChar_facts (hn x hx)).1]
  obtain ⟨htw, hdw⟩ :
      (netloc ++ (path ++ '?' :: query)).takeWhile
          (fun c => decide (¬(netlocDelim c = true))) = netloc ∧
      (netloc ++ (path ++ '?' :: query)).dropWhile
          (fun c => decide (¬(netlocDelim c = true))) = path ++ '?' :: query := by
    rcases hph with hph | hph
    · obtain ⟨p1, hp1⟩ : ∃ t, path = '/' :: t := by
        cases path with
        | nil => simp at hph
        | cons a t =>
          simp only [List.head?] at hph
          exact ⟨t, by rw [Option.some.injEq] at hph; rw [hph]⟩
      subst hp1
      have := takeWhile_dropWhile_append_first (p1 ++ '?' :: query) '/'
        hxs (by decide)
      simpa using this
    · subst hph
      have := takeWhile_dropWhile_append_first query '?' hxs (by decide)
      simpa using this
  have hlb : '[' ∉ netloc := fun hm => (netlocOkChar_facts (hn _ hm)).2.1 rfl
  have hrb : ']' ∉ netloc := fun hm =>
    (netlocOkChar_facts (hn _ hm)).2.2.1 rfl
  have hascii : netloc.all (fun c => c.toNat < 128) = true := by
    apply List.all_eq_true.mpr
    intro x hx
    show decide (x.toNat < 128) = true
    simp [(netlocOkChar_facts (hn x hx)).2.2.2.1]
  have hfrag : splitOnce '#' (path ++ '?' :: query) = none := by
    apply splitOnce_eq_none
    intro hm
    simp only [List.mem_append, List.mem_cons] at hm
    rcases hm with hm | hm | hm
    · exact (pathPlainChar_facts (hp _ hm)).2.1 rfl
    · exact absurd hm (by decide)
    · exact (queryOkChar_facts (hq _ hm)).1 rfl
  have hqm : '?' ∉ path := fun hm => (pathPlainChar_facts (hp _ hm)).1 rfl
  have hsplit2 : splitOnce '?' (path ++ '?' :: query) = some (path, query) :=
    splitOnce_append_first query hqm
  simp only [pyUrlsplit, hfilter, hsplit1, hcond, if_true, htw, hdw, hlb,
    hrb, hascii, hfrag, hsplit2]
  simp [hlb, hrb, hascii]

theorem sas_params_of_urlsplit (s : String) (res : UrlSplitResult)
    (h : pyUrlsplit s.data = .ok res) :
    _sas_params s = .ok ⟨res.query⟩ := by
  by_cases hc : pyUsesParams.contains res.scheme = true ∧ ';' ∈ res.path
  · simp only [_sas_params, pyUrlparse, h, Bind.bind, Except.bind, if_pos hc]
    rfl
  · simp only [_sas_params, pyUrlparse, h, Bind.bind, Except.bind, if_neg hc]
    rfl

theorem base_url_of_urlsplit (s : String) (res : UrlSplitResult)
    (h : pyUrlsplit s.data = .ok res) (hsemi : ';' ∉ res.path) :
    _base_url s =
      .ok ((⟨res.scheme⟩ : String) ++ "://" ++ ⟨res.netloc⟩ ++ ⟨res.path⟩) := by
  simp only [_base_url, pyUrlparse, h, Bind.bind, Except.bind]
  rw [if_neg]
  · rfl
  · intro hcond
    exact hsemi hcond.2

/-- C9: For every access URL of the canonical `scheme://netloc/path?query`
shape (scheme of letters/digits/`+-.` starting with a letter, netloc
free of delimiters and brackets, path starting with `/` and free of
`?#;`, query free of `#`) and every blob name free of `?` and `#`,
splitting the URL with `_base_url` / `_sas_params` and rejoining as
`f"{base}/{blob_name}?{params}"` (as `download_blob` does) yields a
request URL whose token portion — its query string under the same
parser — equals the original URL's query string exactly. -/
theorem C9_split_rejoin_token (scheme netloc path query name : List Char)
    (hne : scheme ≠ [])
    (hhead : (match scheme.head? with
      | some c => c.isAlpha
      | none => false) = true)
    (hs : ∀ c ∈ scheme, schemeChar c = true)
    (hn : ∀ c ∈ netloc, netlocOkChar c = true)
    (hp : ∀ c ∈ path, pathPlainChar c = true)
    (hsemi : ';' ∉ path)
    (hph : path.head? = some '/' ∨ path = [])
    (hq : ∀ c ∈ query, queryOkChar c = true)
    (hname : ∀ c ∈ name, pathPlainChar c = true) :
    ∃ b q : String,
      _base_url ⟨scheme ++ ':' :: '/' :: '/' ::
        (netloc ++ (path ++ '?' :: query))⟩ = .ok b ∧
      _sas_params ⟨scheme ++ ':' :: '/' :: '/' ::
        (netloc ++ (path ++ '?' :: query))⟩ = .ok q ∧
      q.data = query ∧
      _sas_params (b ++ "/" ++ (⟨name⟩ : String) ++ "?" ++ q) = .ok q := by
  have hheadA : ∀ c, scheme.head? = some c → c.isAlpha = true := by
    intro c hc
    rw [hc] at hhead
    exact hhead
  have hu := pyUrlsplit_canonical scheme netloc path query hne hheadA hs hn
    hp hph hq
  refine ⟨(⟨scheme.map asciiLower⟩ : String) ++ "://" ++ ⟨netloc⟩ ++ ⟨path⟩,
    ⟨query⟩, ?_, ?_, rfl, ?_⟩
  · exact base_url_of_urlsplit _ _ hu hsemi
  · exact sas_params_of_urlsplit _ _ hu
  · have hname2 : ∀ c ∈ path ++ '/' :: name, pathPlainChar c = true := by
      intro c hc
      simp only [List.mem_append, List.mem_cons] at hc
      rcases hc with hc | hc | hc
      · exact hp c hc
      · subst hc; decide
      · exact hname c hc
    have hs2 : ∀ c ∈ scheme.map asciiLower, schemeChar c = true := by
      intro c hc
      obtain ⟨c0, hc0, rfl⟩ := List.mem_map.mp hc
      exact asciiLower_schemeChar (hs c0 hc0)
    have hne2 : scheme.map asciiLower ≠ [] := by
      intro hmap
      exact hne (List.map_eq_nil_iff.mp hmap)
    have hhead2 : ∀ c, (scheme.map asciiLower).head? = some c →
        c.isAlpha = true := by
      intro c hc
      cases hsch : scheme with
      | nil => exact absurd hsch hne
      | cons a t =>
        subst hsch
        simp only [List.map_cons, List.head?_cons, Option.some.injEq] at hc
        exact hc ▸ asciiLower_isAlpha (hheadA a rfl)
    have hph2 : (path ++ '/' :: name).head? = some '/' ∨
        path ++ '/' :: name = [] := by
      left
      rcases hph with hph | hph
      · cases path with
        | nil => simp at hph
        | cons a t => simpa using hph
      · subst hph; rfl
    have hr := pyUrlsplit_canonical (scheme.map asciiLower) netloc
      (path ++ '/' :: name) query hne2 hhead2 hs2 hn hname2 hph2 hq
    have hrdata : ((⟨scheme.map asciiLower⟩ : String) ++ "://" ++ ⟨netloc⟩ ++
          ⟨path⟩ ++ "/" ++ (⟨name⟩ : String) ++ "?" ++
          (⟨query⟩ : String)).data =
        (scheme.map asciiLower) ++ ':' :: '/' :: '/' ::
          (netloc ++ ((path ++ '/' :: name) ++ '?' :: query)) := by
      show (((((((scheme.map asciiLower) ++ (":" ++ "//").data) ++ netloc) ++
        path) ++ "/".data) ++ name) ++ "?".data) ++ query = _
      simp [List.append_assoc]
    exact sas_params_of_urlsplit _ _ (by rw [hrdata]; exact hr)

/-- Closed instance of `C9_split_rejoin_token` at an Azure-style SAS
URL `https://acct.example.net/c?sv=1&sig=s` and blob name
`dir/file.txt`. -/
theorem C9_split_rejoin_token_witness :
    ∃ b q : String,
      _base_url ⟨"https".data ++ ':' :: '/' :: '/' ::
        ("acct.example.net".data ++
          ("/c".data ++ '?' :: "sv=1&sig=s".data))⟩ = .ok b ∧
      _sas_params ⟨"https".data ++ ':' :: '/' :: '/' ::
        ("acct.example.net".data ++
          ("/c".data ++ '?' :: "sv=1&sig=s".data))⟩ = .ok q ∧
      q.data = "sv=1&sig=s".data ∧
      _sas_params (b ++ "/" ++ (⟨"dir/file.txt".data⟩ : String) ++ "?" ++ q) =
        .ok q :=
  C9_split_rejoin_token "https".data "acct.example.net".data "/c".data
    "sv=1&sig=s".data "dir/file.txt".data (by decide) (by decide)
    (by decide) (by decide) (by decide) (by decide) (by decide) (by decide)
    (by decide)
